import Mathlib

/-!
Shallow embedding of the BiteSpeed identity-reconciliation service
(`src/identityService.ts`).  The database table is modelled as a list of
contacts; SQL result order for `ORDER BY "createdAt" ASC` is modelled as the
stable sort of the table list by `createdAt` (ties keep table order, which the
SQL standard leaves unspecified).  Timestamps (`NOW()`) are a `Nat` parameter
`now` fixed for the whole call, matching one transaction.
-/

namespace Bitespeed

inductive LinkPrecedence where
  | primary
  | secondary
deriving DecidableEq, Repr

structure Contact where
  id : Nat
  email : Option String
  phoneNumber : Option String
  linkedId : Option Nat
  linkPrecedence : LinkPrecedence
  createdAt : Nat
  updatedAt : Nat
  deletedAt : Option Nat
deriving DecidableEq, Repr

/-- The persistent store: the `Contact` table plus the next id the database
will assign (ids are monotonically increasing). -/
structure ServiceState where
  table : List Contact
  nextId : Nat
deriving DecidableEq, Repr

/-- JavaScript string truthiness for optional string fields:
`null`/`undefined` and `""` are falsy. -/
def truthyStr : Option String → Bool
  | none => false
  | some s => !(s = "")

/-- Stable insertion of a contact into a list sorted by `createdAt`:
the new element goes before the first element with a `createdAt` not smaller
than its own, hence before later-inserted equals (stability). -/
def insertByCreatedAt (c : Contact) : List Contact → List Contact
  | [] => [c]
  | b :: bs =>
    if c.createdAt ≤ b.createdAt then c :: b :: bs
    else b :: insertByCreatedAt c bs

/-- Stable sort by `createdAt` ascending.  Models both the SQL
`ORDER BY "createdAt" ASC` (determinised: ties keep list order) and the
JavaScript `Array.prototype.sort` with comparator `dateA - dateB`
(stable since ES2019). -/
def sortByCreatedAt : List Contact → List Contact
  | [] => []
  | c :: cs => insertByCreatedAt c (sortByCreatedAt cs)

/-- The `WHERE` predicate of `findMatchingContacts`: email equals the given
email or phone equals the given phone, with a predicate skipped entirely when
its input is falsy. -/
def matchCond (email phoneNumber : Option String) (c : Contact) : Bool :=
  (truthyStr email && c.email == email) ||
  (truthyStr phoneNumber && c.phoneNumber == phoneNumber)

/-- `findMatchingContacts` (src/identityService.ts lines 8-36): all
non-deleted contacts matching the given email or phone, ordered by
`createdAt` ascending; empty when both inputs are falsy. -/
def findMatchingContacts (email phoneNumber : Option String)
    (table : List Contact) : List Contact :=
  if truthyStr email || truthyStr phoneNumber then
    sortByCreatedAt (table.filter fun c =>
      matchCond email phoneNumber c && c.deletedAt == none)
  else []

/-- The governing primary id of a contact: its own id when primary, else its
`linkedId` (lines 48-55). -/
def governingId (c : Contact) : Option Nat :=
  if c.linkPrecedence == LinkPrecedence.primary then some c.id else c.linkedId

/-- The `WHERE` predicate of `fetchFullCluster`: id in the primary-id set or
`linkedId` in the primary-id set (`NULL = ANY(..)` is false). -/
def clusterCond (pids : List Nat) (c : Contact) : Bool :=
  pids.contains c.id ||
  (match c.linkedId with
   | some l => pids.contains l
   | none => false)

/-- `fetchFullCluster` (lines 42-69): all non-deleted contacts whose id or
`linkedId` is among the governing primary ids of the given contacts, ordered
by `createdAt` ascending. -/
def fetchFullCluster (contacts : List Contact) (table : List Contact) :
    List Contact :=
  if contacts.isEmpty then []
  else
    let pids := contacts.filterMap governingId
    sortByCreatedAt (table.filter fun c =>
      clusterCond pids c && c.deletedAt == none)

/-- `createPrimaryContact` (lines 74-88): insert a fresh primary row. -/
def createPrimaryContact (email phoneNumber : Option String) (now : Nat)
    (s : ServiceState) : Contact × ServiceState :=
  let c : Contact :=
    ⟨s.nextId, email, phoneNumber, none, LinkPrecedence.primary, now, now, none⟩
  (c, ⟨s.table ++ [c], s.nextId + 1⟩)

/-- `createSecondaryContact` (lines 93-108): insert a fresh secondary row
linked to the given primary. -/
def createSecondaryContact (email phoneNumber : Option String)
    (primaryId : Nat) (now : Nat) (s : ServiceState) : Contact × ServiceState :=
  let c : Contact :=
    ⟨s.nextId, email, phoneNumber, some primaryId, LinkPrecedence.secondary,
      now, now, none⟩
  (c, ⟨s.table ++ [c], s.nextId + 1⟩)

/-- The per-row effect of the `demoteToSecondary` UPDATE. -/
def demoteFn (contactId newPrimaryId now : Nat) (c : Contact) : Contact :=
  if c.id = contactId then
    { c with linkPrecedence := LinkPrecedence.secondary,
             linkedId := some newPrimaryId, updatedAt := now }
  else c

/-- `demoteToSecondary` (lines 113-128): set the row with the given id to
secondary pointing at `newPrimaryId` (no tombstone filter in the UPDATE). -/
def demoteToSecondary (contactId newPrimaryId now : Nat)
    (t : List Contact) : List Contact :=
  t.map (demoteFn contactId newPrimaryId now)

/-- The per-row effect of the `reassignSecondaries` UPDATE. -/
def reassignFn (oldPrimaryId newPrimaryId now : Nat) (c : Contact) : Contact :=
  if c.linkedId = some oldPrimaryId ∧ c.deletedAt = none then
    { c with linkedId := some newPrimaryId, updatedAt := now }
  else c

/-- `reassignSecondaries` (lines 133-148): re-point every non-deleted row with
`linkedId = oldPrimaryId` to `newPrimaryId`. -/
def reassignSecondaries (oldPrimaryId newPrimaryId now : Nat)
    (t : List Contact) : List Contact :=
  t.map (reassignFn oldPrimaryId newPrimaryId now)

/-- The merge loop of `identifyContact` (lines 226-230): for each loser in
order, re-assign its secondaries to the true primary, then demote it. -/
def mergeLosers (losers : List Contact) (tpId now : Nat)
    (t : List Contact) : List Contact :=
  losers.foldl
    (fun acc l => demoteToSecondary l.id tpId now
      (reassignSecondaries l.id tpId now acc)) t

/-- The shape of the value `buildResponse` returns: the object literal at
lines 174-181, with its field spelling `primaryContatctId`, nested under the
single top-level field `contact`. -/
structure ContactView where
  primaryContatctId : Nat
  emails : List String
  phoneNumbers : List String
  secondaryContactIds : List Nat
deriving DecidableEq, Repr

structure IdentifyResponse where
  contact : ContactView
deriving DecidableEq, Repr

/-- One push step of `buildResponse`: append a truthy value not already
present (lines 164-171). -/
def pushVal (acc : List String) (v : Option String) : List String :=
  match v with
  | none => acc
  | some x => if x = "" then acc else if acc.contains x then acc else acc ++ [x]

/-- The loop over secondaries in `buildResponse` (lines 167-172), threading
the emails, phoneNumbers and secondaryContactIds accumulators. -/
def projLoop : List Contact → List String × List String × List Nat →
    List String × List String × List Nat
  | [], acc => acc
  | c :: rest, (es, ps, ids) =>
    projLoop rest (pushVal es c.email, pushVal ps c.phoneNumber, ids ++ [c.id])

/-- `buildResponse` (lines 153-182).  The source dereferences
`allContacts.find(...)!`; a missing primary would throw, modelled as `none`. -/
def buildResponse (allContacts : List Contact) (primaryId : Nat) :
    Option IdentifyResponse :=
  match allContacts.find? (fun c => c.id == primaryId) with
  | none => none
  | some primary =>
    let secondaries := allContacts.filter fun c => !(c.id == primaryId)
    let start : List String × List String × List Nat :=
      (pushVal [] primary.email, pushVal [] primary.phoneNumber, [])
    let res := projLoop secondaries start
    some ⟨⟨primaryId, res.1, res.2.1, res.2.2⟩⟩

/-- `body.email?.trim() || null`: trim, and collapse empty to null.
JavaScript `trim` is modelled on the character list (whitespace stripped from
both ends). -/
def isWsChar (ch : Char) : Bool :=
  ch = ' ' || ch = '\t' || ch = '\n' || ch = '\r'

def trimOrNull : Option String → Option String
  | none => none
  | some s =>
    let t : List Char :=
      ((s.data.dropWhile isWsChar).reverse.dropWhile isWsChar).reverse
    if t = [] then none else some (String.mk t)

/-- Steps 2-3 of `identifyContact` (lines 212-235): expand the cluster, find
its primaries, and when more than one is present sort them by `createdAt`
(stable, no id tie-break), keep the first as true primary, merge every other
primary into it and re-expand.  Returns the true primary, the unified cluster
and the updated table.  `none` models the crash on an empty primary list
(`primaries[0]` undefined). -/
def collisionStep (matched : List Contact) (now : Nat)
    (table : List Contact) : Option (Contact × List Contact × List Contact) :=
  let cluster := fetchFullCluster matched table
  let primaries := cluster.filter fun c =>
    c.linkPrecedence == LinkPrecedence.primary
  if primaries.length > 1 then
    match sortByCreatedAt primaries with
    | [] => none
    | tp :: losers =>
      let t2 := mergeLosers losers tp.id now table
      some (tp, fetchFullCluster [tp] t2, t2)
  else
    match primaries with
    | [] => none
    | p :: _ => some (p, cluster, table)

/-- The distinct truthy emails present in a cluster (line 238-240,
`new Set(cluster.map(c => c.email).filter(Boolean))`, as a list whose
membership is the set). -/
def clusterEmailValues (cluster : List Contact) : List String :=
  cluster.filterMap fun c => if truthyStr c.email then c.email else none

/-- The distinct truthy phone numbers present in a cluster (lines 241-243). -/
def clusterPhoneValues (cluster : List Contact) : List String :=
  cluster.filterMap fun c => if truthyStr c.phoneNumber then c.phoneNumber else none

/-- Steps 4-6 of `identifyContact` (lines 237-259): novelty detection,
possible creation of a secondary, and projection of the response. -/
def noveltyStep (email phoneNumber : Option String) (now nextId : Nat)
    (tp : Contact) (cluster2 table2 : List Contact) :
    Option (IdentifyResponse × ServiceState) :=
  let existingEmails := clusterEmailValues cluster2
  let existingPhones := clusterPhoneValues cluster2
  let hasNewEmail :=
    match email with
    | some v => !(existingEmails.contains v)
    | none => false
  let hasNewPhone :=
    match phoneNumber with
    | some v => !(existingPhones.contains v)
    | none => false
  if hasNewEmail || hasNewPhone then
    let created := createSecondaryContact email phoneNumber tp.id now
      ⟨table2, nextId⟩
    (buildResponse (cluster2 ++ [created.1]) tp.id).map
      fun r => (r, created.2)
  else
    (buildResponse cluster2 tp.id).map fun r => (r, ⟨table2, nextId⟩)

/-- `identifyContact` (lines 187-266), pure view: the response and the state
after commit, or `none` when the call throws (missing identifiers, or the
unreachable-by-invariant empty-primaries crash). -/
def identifyContact (bodyEmail bodyPhone : Option String) (now : Nat)
    (s : ServiceState) : Option (IdentifyResponse × ServiceState) :=
  let email := trimOrNull bodyEmail
  let phoneNumber := trimOrNull bodyPhone
  if email = none ∧ phoneNumber = none then none
  else
    let matched := findMatchingContacts email phoneNumber s.table
    if matched.isEmpty then
      let created := createPrimaryContact email phoneNumber now s
      (buildResponse [created.1] created.1.id).map fun r => (r, created.2)
    else
      match collisionStep matched now s.table with
      | none => none
      | some (tp, cluster2, table2) =>
        noveltyStep email phoneNumber now s.nextId tp cluster2 table2

/-! ### Claim-side definitions (from the spec wording, for comparison) -/

/-- Strict lexicographic order on (`createdAt`, `id`), the order the spec
claims resolves primary seniority. -/
def lexLtCreatedId (a b : Contact) : Bool :=
  a.createdAt < b.createdAt || (a.createdAt == b.createdAt && a.id < b.id)

/-- The true primary as the spec words it: first element after sorting by
`createdAt` ascending with ties broken by `id` ascending, i.e. the unique
minimum under the (`createdAt`, `id`) lexicographic order. -/
def claimTruePrimary : List Contact → Option Contact
  | [] => none
  | c :: cs => some (cs.foldl (fun m x => if lexLtCreatedId x m then x else m) c)

/-- One append step of the projection as the spec words it: skip nulls and
values already present, otherwise append. -/
def specAppendVal (acc : List String) (v : Option String) : List String :=
  match v with
  | none => acc
  | some x => if acc.contains x then acc else acc ++ [x]

/-- The ordered deduplicated value list as the spec words it: the primary's
own value first (when non-null), then each secondary's value in cluster
order, skipping nulls and duplicates already added. -/
def specValueList (primaryVal : Option String)
    (vals : List (Option String)) : List String :=
  vals.foldl specAppendVal primaryVal.toList

/-! ### The JSON wire shape of the response -/

inductive Json where
  | jnull
  | jnum (n : Nat)
  | jstr (s : String)
  | jarr (items : List Json)
  | jobj (fields : List (String × Json))

/-- The JSON document `res.json(...)` serialises for an identify response:
the object literal of `buildResponse` (lines 174-181). -/
def encodeResponse (r : IdentifyResponse) : Json :=
  Json.jobj [("contact", Json.jobj [
    ("primaryContatctId", Json.jnum r.contact.primaryContatctId),
    ("emails", Json.jarr (r.contact.emails.map Json.jstr)),
    ("phoneNumbers", Json.jarr (r.contact.phoneNumbers.map Json.jstr)),
    ("secondaryContactIds",
      Json.jarr (r.contact.secondaryContactIds.map Json.jnum))])]

/-- The field names of a JSON object, in order. -/
def topKeys : Json → List String
  | Json.jobj fields => fields.map (fun f => f.1)
  | _ => []

/-- Look up a field of a JSON object. -/
def jGet : Json → String → Option Json
  | Json.jobj fields, k => (fields.find? (fun f => f.1 == k)).map (fun f => f.2)
  | _, _ => none

/-! ### Transaction-trace model of the orchestration (lines 197-266)

The pure model above gives the committed result; this model additionally
records the client commands issued and lets any `client.query` call fail,
to capture the try/catch/finally orchestration: BEGIN, the queries in
program order, COMMIT on success, ROLLBACK on failure, `client.release()` in
`finally`.  The durable state changes only at COMMIT (the spec assumes an
ACID store).  `oracle i` says whether the i-th query of this call fails;
a failing query's own error is the value `TxError.storage i`. -/

inductive TxError where
  | invalidInput
  | crash
  | storage (opIndex : Nat)
deriving DecidableEq, Repr

structure TxRun where
  idx : Nat
  trace : List String
deriving DecidableEq, Repr

structure TxOutcome where
  result : Except TxError IdentifyResponse
  trace : List String
  durable : ServiceState
deriving Repr

/-- Issue one fallible client query: it is recorded in the trace, and the
oracle decides whether it fails. -/
def txOp (oracle : Nat → Bool) (name : String) (run : TxRun) :
    Except (Nat × TxRun) TxRun :=
  let run2 : TxRun := ⟨run.idx + 1, run.trace ++ [name]⟩
  if oracle run.idx then Except.error (run.idx, run2) else Except.ok run2

/-- Abort path of the catch block: ROLLBACK, then release in `finally`;
nothing was committed so the durable state is the initial one. -/
def abortTx (s : ServiceState) (i : Nat) (run : TxRun) : TxOutcome :=
  ⟨Except.error (TxError.storage i), run.trace ++ ["ROLLBACK", "release"], s⟩

/-- The merge loop (lines 226-230) with its two UPDATE queries per loser. -/
def mergeLosersTx (oracle : Nat → Bool) (tpId now : Nat) :
    List Contact → List Contact → TxRun →
    Except (Nat × TxRun) (List Contact × TxRun)
  | [], t, run => Except.ok (t, run)
  | l :: rest, t, run =>
    match txOp oracle "UPDATE reassign" run with
    | Except.error e => Except.error e
    | Except.ok run1 =>
      match txOp oracle "UPDATE demote" run1 with
      | Except.error e => Except.error e
      | Except.ok run2 =>
        mergeLosersTx oracle tpId now rest
          (demoteToSecondary l.id tpId now (reassignSecondaries l.id tpId now t))
          run2

/-- COMMIT followed by the post-commit projection (`return buildResponse(...)`
runs after COMMIT in the source, so a projection crash there leaves the
committed state durable). -/
def commitTail (oracle : Nat → Bool) (s : ServiceState)
    (cluster3 : List Contact) (tpId : Nat) (committed : ServiceState)
    (run : TxRun) : TxOutcome :=
  match txOp oracle "COMMIT" run with
  | Except.error (i, run2) => abortTx s i run2
  | Except.ok run2 =>
    match buildResponse cluster3 tpId with
    | none => ⟨Except.error TxError.crash,
        run2.trace ++ ["ROLLBACK", "release"], committed⟩
    | some r => ⟨Except.ok r, run2.trace ++ ["release"], committed⟩

/-- Novelty check, optional INSERT, COMMIT and projection (lines 237-259)
in the trace model. -/
def finishTx (oracle : Nat → Bool) (email phoneNumber : Option String)
    (now : Nat) (s : ServiceState) (tp : Contact)
    (cluster2 table2 : List Contact) (run : TxRun) : TxOutcome :=
  let hasNewEmail :=
    match email with
    | some v => !((clusterEmailValues cluster2).contains v)
    | none => false
  let hasNewPhone :=
    match phoneNumber with
    | some v => !((clusterPhoneValues cluster2).contains v)
    | none => false
  if hasNewEmail || hasNewPhone then
    match txOp oracle "INSERT secondary" run with
    | Except.error (i, run2) => abortTx s i run2
    | Except.ok run2 =>
      let created := createSecondaryContact email phoneNumber tp.id now
        ⟨table2, s.nextId⟩
      commitTail oracle s (cluster2 ++ [created.1]) tp.id created.2 run2
  else
    commitTail oracle s cluster2 tp.id ⟨table2, s.nextId⟩ run

/-- The whole identify call in the trace model, mirroring the control flow
of `identifyContact` (lines 187-266).  The invalid-input throw happens
before `pool.connect()`, so that path has no trace at all. -/
def identifyTx (oracle : Nat → Bool) (bodyEmail bodyPhone : Option String)
    (now : Nat) (s : ServiceState) : TxOutcome :=
  let email := trimOrNull bodyEmail
  let phoneNumber := trimOrNull bodyPhone
  if email = none ∧ phoneNumber = none then
    ⟨Except.error TxError.invalidInput, [], s⟩
  else
    let run0 : TxRun := ⟨0, ["connect"]⟩
    match txOp oracle "BEGIN" run0 with
    | Except.error (i, run) => abortTx s i run
    | Except.ok run1 =>
      match txOp oracle "SELECT matching" run1 with
      | Except.error (i, run) => abortTx s i run
      | Except.ok run2 =>
        let matched := findMatchingContacts email phoneNumber s.table
        if matched.isEmpty then
          match txOp oracle "INSERT primary" run2 with
          | Except.error (i, run) => abortTx s i run
          | Except.ok run3 =>
            let created := createPrimaryContact email phoneNumber now s
            commitTail oracle s [created.1] created.1.id created.2 run3
        else
          match txOp oracle "SELECT cluster" run2 with
          | Except.error (i, run) => abortTx s i run
          | Except.ok run3 =>
            let cluster := fetchFullCluster matched s.table
            let primaries := cluster.filter fun c =>
              c.linkPrecedence == LinkPrecedence.primary
            if primaries.length > 1 then
              match sortByCreatedAt primaries with
              | [] => ⟨Except.error TxError.crash,
                  run3.trace ++ ["ROLLBACK", "release"], s⟩
              | tpS :: losers =>
                match mergeLosersTx oracle tpS.id now losers s.table run3 with
                | Except.error (i, run) => abortTx s i run
                | Except.ok (t2, run4) =>
                  match txOp oracle "SELECT recluster" run4 with
                  | Except.error (i, run) => abortTx s i run
                  | Except.ok run5 =>
                    finishTx oracle email phoneNumber now s tpS
                      (fetchFullCluster [tpS] t2) t2 run5
            else
              match primaries with
              | [] => ⟨Except.error TxError.crash,
                  run3.trace ++ ["ROLLBACK", "release"], s⟩
              | p :: _ =>
                finishTx oracle email phoneNumber now s p cluster s.table run3

/-! ### Basic lemmas about the stable sort -/

theorem insertByCreatedAt_perm (c : Contact) (l : List Contact) :
    (insertByCreatedAt c l).Perm (c :: l) := by
  induction l with
  | nil => simp [insertByCreatedAt]
  | cons b bs ih =>
    simp only [insertByCreatedAt]
    split
    · exact List.Perm.refl _
    · exact (ih.cons b).trans (List.Perm.swap c b bs)

theorem sortByCreatedAt_perm (l : List Contact) :
    (sortByCreatedAt l).Perm l := by
  induction l with
  | nil => simp [sortByCreatedAt]
  | cons c cs ih =>
    exact (insertByCreatedAt_perm c (sortByCreatedAt cs)).trans (ih.cons c)

theorem mem_sortByCreatedAt {a : Contact} {l : List Contact} :
    a ∈ sortByCreatedAt l ↔ a ∈ l :=
  (sortByCreatedAt_perm l).mem_iff

theorem sortByCreatedAt_length (l : List Contact) :
    (sortByCreatedAt l).length = l.length :=
  (sortByCreatedAt_perm l).length_eq

theorem sortByCreatedAt_nodup {l : List Contact} (h : l.Nodup) :
    (sortByCreatedAt l).Nodup :=
  ((sortByCreatedAt_perm l).nodup_iff).mpr h

theorem insertByCreatedAt_pairwise {c : Contact} {l : List Contact}
    (h : l.Pairwise (fun a b => a.createdAt ≤ b.createdAt)) :
    (insertByCreatedAt c l).Pairwise (fun a b => a.createdAt ≤ b.createdAt) := by
  induction l with
  | nil => simp [insertByCreatedAt]
  | cons b bs ih =>
    simp only [insertByCreatedAt]
    rcases List.pairwise_cons.mp h with ⟨hb, hbs⟩
    split
    · rename_i hle
      refine List.pairwise_cons.mpr ⟨?_, h⟩
      intro x hx
      rcases List.mem_cons.mp hx with rfl | hx
      · exact hle
      · exact Nat.le_trans hle (hb x hx)
    · rename_i hgt
      refine List.pairwise_cons.mpr ⟨?_, ih hbs⟩
      intro x hx
      have hx' : x ∈ c :: bs := (insertByCreatedAt_perm c bs).mem_iff.mp hx
      rcases List.mem_cons.mp hx' with rfl | hx2
      · exact Nat.le_of_not_le hgt
      · exact hb x hx2

theorem sortByCreatedAt_pairwise (l : List Contact) :
    (sortByCreatedAt l).Pairwise (fun a b => a.createdAt ≤ b.createdAt) := by
  induction l with
  | nil => simp [sortByCreatedAt]
  | cons c cs ih => exact insertByCreatedAt_pairwise ih

/-- The head of the sorted list has minimal `createdAt` among all elements. -/
theorem sortByCreatedAt_head_min {l : List Contact} {c : Contact}
    {rest : List Contact} (h : sortByCreatedAt l = c :: rest) :
    ∀ b ∈ l, c.createdAt ≤ b.createdAt := by
  intro b hb
  have hbmem : b ∈ sortByCreatedAt l := mem_sortByCreatedAt.mpr hb
  rw [h] at hbmem
  rcases List.mem_cons.mp hbmem with rfl | hbmem
  · exact Nat.le_refl _
  · have hp := sortByCreatedAt_pairwise l
    rw [h] at hp
    exact (List.pairwise_cons.mp hp).1 b hbmem

/-! ### Lemmas about the lookup and expansion queries -/

theorem mem_findMatchingContacts {e p : Option String} {t : List Contact}
    {c : Contact} (h : c ∈ findMatchingContacts e p t) :
    c ∈ t ∧ c.deletedAt = none ∧ matchCond e p c = true := by
  unfold findMatchingContacts at h
  split at h
  · have h' := mem_sortByCreatedAt.mp h
    have := List.mem_filter.mp h'
    rcases this with ⟨hmem, hcond⟩
    simp only [Bool.and_eq_true, beq_iff_eq] at hcond
    exact ⟨hmem, hcond.2, hcond.1⟩
  · simp at h

theorem mem_fetchFullCluster {ms t : List Contact} {c : Contact}
    (h : c ∈ fetchFullCluster ms t) : c ∈ t ∧ c.deletedAt = none := by
  unfold fetchFullCluster at h
  split at h
  · simp at h
  · have h' := mem_sortByCreatedAt.mp h
    have := List.mem_filter.mp h'
    rcases this with ⟨hmem, hcond⟩
    simp only [Bool.and_eq_true, beq_iff_eq] at hcond
    exact ⟨hmem, hcond.2⟩

/-- When every row matching the identifiers is tombstoned, lookup is empty. -/
theorem findMatchingContacts_eq_nil {e p : Option String} {t : List Contact}
    (h : ∀ c ∈ t, matchCond e p c = true → c.deletedAt ≠ none) :
    findMatchingContacts e p t = [] := by
  unfold findMatchingContacts
  split
  · have : t.filter (fun c => matchCond e p c && c.deletedAt == none) = [] := by
      apply List.filter_eq_nil_iff.mpr
      intro c hc
      simp only [Bool.and_eq_true, beq_iff_eq, not_and]
      intro hm
      exact fun hd => h c hc hm hd
    rw [this]
    rfl
  · rfl

/-! ### The updates preserve the id column and the untouched fields -/

@[simp] theorem reassignFn_id (o n w : Nat) (c : Contact) :
    (reassignFn o n w c).id = c.id := by
  unfold reassignFn; split <;> rfl

@[simp] theorem reassignFn_deletedAt (o n w : Nat) (c : Contact) :
    (reassignFn o n w c).deletedAt = c.deletedAt := by
  unfold reassignFn; split <;> rfl

@[simp] theorem reassignFn_linkPrecedence (o n w : Nat) (c : Contact) :
    (reassignFn o n w c).linkPrecedence = c.linkPrecedence := by
  unfold reassignFn; split <;> rfl

@[simp] theorem reassignFn_email (o n w : Nat) (c : Contact) :
    (reassignFn o n w c).email = c.email := by
  unfold reassignFn; split <;> rfl

@[simp] theorem reassignFn_phoneNumber (o n w : Nat) (c : Contact) :
    (reassignFn o n w c).phoneNumber = c.phoneNumber := by
  unfold reassignFn; split <;> rfl

@[simp] theorem reassignFn_createdAt (o n w : Nat) (c : Contact) :
    (reassignFn o n w c).createdAt = c.createdAt := by
  unfold reassignFn; split <;> rfl

@[simp] theorem demoteFn_id (i n w : Nat) (c : Contact) :
    (demoteFn i n w c).id = c.id := by
  unfold demoteFn; split <;> rfl

@[simp] theorem demoteFn_deletedAt (i n w : Nat) (c : Contact) :
    (demoteFn i n w c).deletedAt = c.deletedAt := by
  unfold demoteFn; split <;> rfl

@[simp] theorem demoteFn_email (i n w : Nat) (c : Contact) :
    (demoteFn i n w c).email = c.email := by
  unfold demoteFn; split <;> rfl

@[simp] theorem demoteFn_phoneNumber (i n w : Nat) (c : Contact) :
    (demoteFn i n w c).phoneNumber = c.phoneNumber := by
  unfold demoteFn; split <;> rfl

@[simp] theorem demoteFn_createdAt (i n w : Nat) (c : Contact) :
    (demoteFn i n w c).createdAt = c.createdAt := by
  unfold demoteFn; split <;> rfl

theorem reassignSecondaries_map_id (oldId newId now : Nat) (t : List Contact) :
    (reassignSecondaries oldId newId now t).map (·.id) = t.map (·.id) := by
  unfold reassignSecondaries
  rw [List.map_map]
  apply List.map_congr_left
  intro c _
  simp [Function.comp]

theorem demoteToSecondary_map_id (cid newId now : Nat) (t : List Contact) :
    (demoteToSecondary cid newId now t).map (·.id) = t.map (·.id) := by
  unfold demoteToSecondary
  rw [List.map_map]
  apply List.map_congr_left
  intro c _
  simp [Function.comp]

theorem mergeLosers_map_id (losers : List Contact) (tpId now : Nat)
    (t : List Contact) :
    (mergeLosers losers tpId now t).map (·.id) = t.map (·.id) := by
  induction losers generalizing t with
  | nil => rfl
  | cons l ls ih =>
    unfold mergeLosers
    simp only [List.foldl_cons]
    rw [show ∀ t0, List.foldl
        (fun acc l => demoteToSecondary l.id tpId now
          (reassignSecondaries l.id tpId now acc)) t0 ls =
        mergeLosers ls tpId now t0 from fun _ => rfl]
    rw [ih, demoteToSecondary_map_id, reassignSecondaries_map_id]

/-! ### Well-formedness: the one-hop linkage invariant -/

/-- The store invariant of §3 of the spec: distinct ids, and every non-deleted
contact either is a primary with no `linkedId`, or is a secondary whose
`linkedId` points at a non-deleted contact that is itself primary. -/
def WFtable (t : List Contact) : Prop :=
  (t.map (·.id)).Nodup ∧
  ∀ c ∈ t, c.deletedAt = none →
    (c.linkPrecedence = LinkPrecedence.primary ∧ c.linkedId = none) ∨
    (c.linkPrecedence = LinkPrecedence.secondary ∧
      ∃ p ∈ t, some p.id = c.linkedId ∧ p.deletedAt = none ∧
        p.linkPrecedence = LinkPrecedence.primary)

instance (t : List Contact) : Decidable (WFtable t) := by
  unfold WFtable; infer_instance

/-- Full state invariant: table well-formed and every id below `nextId`. -/
def WFstate (s : ServiceState) : Prop :=
  WFtable s.table ∧ ∀ c ∈ s.table, c.id < s.nextId

instance (s : ServiceState) : Decidable (WFstate s) := by
  unfold WFstate; infer_instance

theorem id_inj_of_WF {t : List Contact} (hWF : WFtable t) {a b : Contact}
    (ha : a ∈ t) (hb : b ∈ t) (h : a.id = b.id) : a = b :=
  List.inj_on_of_nodup_map hWF.1 ha hb h

theorem WF_primary_linkedId_none {t : List Contact} (hWF : WFtable t)
    {p : Contact} (hp : p ∈ t) (hd : p.deletedAt = none)
    (hprim : p.linkPrecedence = LinkPrecedence.primary) : p.linkedId = none := by
  rcases hWF.2 p hp hd with ⟨_, h⟩ | ⟨hsec, _⟩
  · exact h
  · rw [hprim] at hsec; cases hsec

/-- A row fixed by the per-row transform stays in the mapped table. -/
theorem mem_map_of_fixed {f : Contact → Contact} {t : List Contact}
    {c : Contact} (hc : c ∈ t) (hf : f c = c) : c ∈ t.map f :=
  List.mem_map.mpr ⟨c, hc, hf⟩

theorem reassignFn_fixed {o n w : Nat} {c : Contact}
    (h : c.linkedId ≠ some o) : reassignFn o n w c = c := by
  unfold reassignFn
  rw [if_neg]
  intro hcon
  exact h hcon.1

theorem demoteFn_fixed {i n w : Nat} {c : Contact} (h : c.id ≠ i) :
    demoteFn i n w c = c := by
  unfold demoteFn
  rw [if_neg h]

/-- One iteration of the merge loop (re-parent then demote one loser)
preserves well-formedness, and leaves the true-primary row untouched. -/
theorem mergeOne_WF {t : List Contact} {tp : Contact} {lid now : Nat}
    (hWF : WFtable t) (htp : tp ∈ t)
    (htpP : tp.linkPrecedence = LinkPrecedence.primary)
    (htpD : tp.deletedAt = none) (hne : lid ≠ tp.id) :
    WFtable (demoteToSecondary lid tp.id now
      (reassignSecondaries lid tp.id now t)) ∧
    tp ∈ demoteToSecondary lid tp.id now
      (reassignSecondaries lid tp.id now t) := by
  have htpL : tp.linkedId = none := WF_primary_linkedId_none hWF htp htpD htpP
  have hftp : reassignFn lid tp.id now tp = tp := by
    apply reassignFn_fixed; rw [htpL]; intro h; cases h
  have hgtp : demoteFn lid tp.id now tp = tp := by
    apply demoteFn_fixed; intro h; exact hne (h ▸ rfl)
  have htpmem : tp ∈ demoteToSecondary lid tp.id now
      (reassignSecondaries lid tp.id now t) := by
    unfold demoteToSecondary reassignSecondaries
    exact mem_map_of_fixed (mem_map_of_fixed htp hftp) hgtp
  refine ⟨⟨?_, ?_⟩, htpmem⟩
  · rw [demoteToSecondary_map_id, reassignSecondaries_map_id]
    exact hWF.1
  · intro c' hc' hd'
    unfold demoteToSecondary reassignSecondaries at hc'
    rcases List.mem_map.mp hc' with ⟨c1, hc1, hgc1⟩
    rcases List.mem_map.mp hc1 with ⟨c, hcmem, hfc⟩
    have hdel : c.deletedAt = none := by
      have : c'.deletedAt = c.deletedAt := by
        rw [← hgc1, ← hfc]; simp
      rw [← this]; exact hd'
    rcases hWF.2 c hcmem hdel with ⟨hcP, hcL⟩ | ⟨hcS, p, hpmem, hpid, hpD, hpP⟩
    · -- c was a non-deleted primary with no link
      have hfc' : reassignFn lid tp.id now c = c := by
        apply reassignFn_fixed; rw [hcL]; intro h; cases h
      by_cases hcid : c.id = lid
      · -- c is the loser being demoted
        right
        have hc'eq : c' =
            { c with
              linkPrecedence := LinkPrecedence.secondary,
              linkedId := some tp.id,
              updatedAt := now } := by
          rw [← hgc1, ← hfc, hfc']
          unfold demoteFn
          rw [if_pos hcid]
        constructor
        · rw [hc'eq]
        · exact ⟨tp, htpmem, by rw [hc'eq], htpD, htpP⟩
      · -- untouched primary
        left
        have hc'eq : c' = c := by
          rw [← hgc1, ← hfc, hfc', demoteFn_fixed hcid]
        rw [hc'eq]
        exact ⟨hcP, hcL⟩
    · -- c was a non-deleted secondary pointing at the primary p
      have hclink : c.linkedId = some p.id := hpid.symm
      by_cases hplid : p.id = lid
      · -- c pointed at the loser: it gets re-parented to the true primary
        have hcid : c.id ≠ lid := by
          intro hcontra
          have : p = c := id_inj_of_WF hWF hpmem hcmem (by rw [hplid, hcontra])
          rw [this, hcS] at hpP
          cases hpP
        have hfc' : reassignFn lid tp.id now c =
            { c with
              linkedId := some tp.id,
              updatedAt := now } := by
          unfold reassignFn
          rw [if_pos ⟨by rw [hclink, hplid], hdel⟩]
        have hc'eq : c' =
            { c with
              linkedId := some tp.id,
              updatedAt := now } := by
          rw [← hgc1, ← hfc, hfc']
          exact demoteFn_fixed (by simpa using hcid)
        right
        constructor
        · rw [hc'eq]; exact hcS
        · exact ⟨tp, htpmem, by rw [hc'eq], htpD, htpP⟩
      · -- c pointed at a primary other than the loser
        have hfc' : reassignFn lid tp.id now c = c := by
          apply reassignFn_fixed
          rw [hclink]
          intro h
          exact hplid (Option.some.inj h)
        by_cases hcid : c.id = lid
        · -- c itself is the loser row (would need c primary; here it is the
          -- demote target anyway)
          right
          have hc'eq : c' =
              { c with
                linkPrecedence := LinkPrecedence.secondary,
                linkedId := some tp.id,
                updatedAt := now } := by
            rw [← hgc1, ← hfc, hfc']
            unfold demoteFn
            rw [if_pos hcid]
          constructor
          · rw [hc'eq]
          · exact ⟨tp, htpmem, by rw [hc'eq], htpD, htpP⟩
        · -- fully untouched secondary: its target p is also untouched
          have hc'eq : c' = c := by
            rw [← hgc1, ← hfc, hfc', demoteFn_fixed hcid]
          have hpL : p.linkedId = none := WF_primary_linkedId_none hWF hpmem hpD hpP
          have hfp : reassignFn lid tp.id now p = p := by
            apply reassignFn_fixed; rw [hpL]; intro h; cases h
          have hgp : demoteFn lid tp.id now p = p := demoteFn_fixed hplid
          have hpmem' : p ∈ demoteToSecondary lid tp.id now
              (reassignSecondaries lid tp.id now t) := by
            unfold demoteToSecondary reassignSecondaries
            exact mem_map_of_fixed (mem_map_of_fixed hpmem hfp) hgp
          right
          rw [hc'eq]
          exact ⟨hcS, p, hpmem', hpid, hpD, hpP⟩

theorem mergeLosers_cons (l : Contact) (ls : List Contact) (tpId now : Nat)
    (t : List Contact) :
    mergeLosers (l :: ls) tpId now t =
    mergeLosers ls tpId now
      (demoteToSecondary l.id tpId now (reassignSecondaries l.id tpId now t)) :=
  rfl

/-- The whole merge loop preserves well-formedness and keeps the true-primary
row untouched in the table. -/
theorem mergeLosers_WF {losers : List Contact} {tp : Contact} {now : Nat}
    {t : List Contact} (hWF : WFtable t) (htp : tp ∈ t)
    (htpP : tp.linkPrecedence = LinkPrecedence.primary)
    (htpD : tp.deletedAt = none)
    (hids : ∀ l ∈ losers, l.id ≠ tp.id) :
    WFtable (mergeLosers losers tp.id now t) ∧
    tp ∈ mergeLosers losers tp.id now t := by
  induction losers generalizing t with
  | nil => exact ⟨hWF, htp⟩
  | cons l ls ih =>
    rw [mergeLosers_cons]
    have step := @mergeOne_WF t tp l.id now hWF htp htpP htpD
      (hids l (List.mem_cons_self l ls))
    exact ih step.1 step.2 (fun x hx => hids x (List.mem_cons_of_mem l hx))

/-- Appending a fresh secondary pointing at a live primary preserves
well-formedness. -/
theorem WFtable_append_secondary {t : List Contact} {tp : Contact}
    (hWF : WFtable t) (htp : tp ∈ t)
    (htpP : tp.linkPrecedence = LinkPrecedence.primary)
    (htpD : tp.deletedAt = none)
    {nid : Nat} (hfresh : nid ∉ t.map (·.id))
    (e p : Option String) (now : Nat) :
    WFtable (t ++ [⟨nid, e, p, some tp.id, LinkPrecedence.secondary,
      now, now, none⟩]) := by
  constructor
  · rw [List.map_append]
    apply List.Nodup.append hWF.1 (by simp)
    intro x hx hx'
    simp only [List.map_cons, List.map_nil, List.mem_singleton] at hx'
    exact hfresh (hx' ▸ hx)
  · intro c hc hd
    rcases List.mem_append.mp hc with hc | hc
    · rcases hWF.2 c hc hd with h | ⟨hS, q, hq, hqid, hqD, hqP⟩
      · exact Or.inl h
      · exact Or.inr ⟨hS, q, List.mem_append_left _ hq, hqid, hqD, hqP⟩
    · rcases List.mem_singleton.mp hc with rfl
      exact Or.inr ⟨rfl, tp, List.mem_append_left _ htp, rfl, htpD, htpP⟩

/-- Appending a fresh primary preserves well-formedness. -/
theorem WFtable_append_primary {t : List Contact} (hWF : WFtable t)
    {nid : Nat} (hfresh : nid ∉ t.map (·.id))
    (e p : Option String) (now : Nat) :
    WFtable (t ++ [⟨nid, e, p, none, LinkPrecedence.primary,
      now, now, none⟩]) := by
  constructor
  · rw [List.map_append]
    apply List.Nodup.append hWF.1 (by simp)
    intro x hx hx'
    simp only [List.map_cons, List.map_nil, List.mem_singleton] at hx'
    exact hfresh (hx' ▸ hx)
  · intro c hc hd
    rcases List.mem_append.mp hc with hc | hc
    · rcases hWF.2 c hc hd with h | ⟨hS, q, hq, hqid, hqD, hqP⟩
      · exact Or.inl h
      · exact Or.inr ⟨hS, q, List.mem_append_left _ hq, hqid, hqD, hqP⟩
    · rcases List.mem_singleton.mp hc with rfl
      exact Or.inl ⟨rfl, rfl⟩

theorem fetchFullCluster_nodup {ms t : List Contact} (h : t.Nodup) :
    (fetchFullCluster ms t).Nodup := by
  unfold fetchFullCluster
  split
  · exact List.nodup_nil
  · exact sortByCreatedAt_nodup (h.filter _)

theorem mem_primaries {cluster : List Contact} {c : Contact}
    (h : c ∈ cluster.filter
      (fun c => c.linkPrecedence == LinkPrecedence.primary)) :
    c ∈ cluster ∧ c.linkPrecedence = LinkPrecedence.primary := by
  have := List.mem_filter.mp h
  exact ⟨this.1, by simpa using this.2⟩

/-- Collision resolution preserves well-formedness: the returned table is
well-formed, the true primary is a live primary row of it, and no row was
inserted or removed. -/
theorem collisionStep_WF {matched : List Contact} {now : Nat}
    {table : List Contact} (hWF : WFtable table) {tp : Contact}
    {cl2 tb2 : List Contact}
    (h : collisionStep matched now table = some (tp, cl2, tb2)) :
    WFtable tb2 ∧ tp ∈ tb2 ∧ tp.linkPrecedence = LinkPrecedence.primary ∧
    tp.deletedAt = none ∧ tb2.map (·.id) = table.map (·.id) := by
  simp only [collisionStep] at h
  cases hpm : List.filter (fun c => c.linkPrecedence == LinkPrecedence.primary)
      (fetchFullCluster matched table) with
  | nil => rw [hpm] at h; simp at h
  | cons p rest =>
    rw [hpm] at h
    by_cases hrest : rest = []
    · subst hrest
      rw [if_neg (by simp)] at h
      simp only [Option.some.injEq, Prod.mk.injEq] at h
      obtain ⟨rfl, rfl, rfl⟩ := h
      have hpmem : p ∈ List.filter
          (fun c => c.linkPrecedence == LinkPrecedence.primary)
          (fetchFullCluster matched table) := by
        rw [hpm]; exact List.mem_cons_self _ _
      have hpcl := mem_primaries hpmem
      have hptab := mem_fetchFullCluster hpcl.1
      exact ⟨hWF, hptab.1, hpcl.2, hptab.2, rfl⟩
    · rw [if_pos (by simpa using List.length_pos.mpr hrest)] at h
      cases hsort : sortByCreatedAt (p :: rest) with
      | nil =>
        have := sortByCreatedAt_length (p :: rest)
        rw [hsort] at this
        simp at this
      | cons tpS losers =>
        rw [hsort] at h
        simp only [Option.some.injEq, Prod.mk.injEq] at h
        obtain ⟨rfl, rfl, rfl⟩ := h
        have hmemP : ∀ x ∈ tpS :: losers, x ∈ List.filter
            (fun c => c.linkPrecedence == LinkPrecedence.primary)
            (fetchFullCluster matched table) := by
          intro x hx
          rw [hpm]
          exact mem_sortByCreatedAt.mp (hsort ▸ hx)
        have htpSp := hmemP tpS (List.mem_cons_self _ _)
        have htpScl := mem_primaries htpSp
        have htpStab := mem_fetchFullCluster htpScl.1
        have htnodup : table.Nodup := List.Nodup.of_map _ hWF.1
        have hsnodup : (tpS :: losers).Nodup := by
          rw [← hsort, ← hpm]
          exact sortByCreatedAt_nodup
            ((fetchFullCluster_nodup htnodup).filter _)
        have hnotin : tpS ∉ losers := (List.nodup_cons.mp hsnodup).1
        have hids : ∀ l ∈ losers, l.id ≠ tpS.id := by
          intro l hl hlid
          have hlmem := hmemP l (List.mem_cons_of_mem _ hl)
          have hltab := mem_fetchFullCluster (mem_primaries hlmem).1
          have : l = tpS := id_inj_of_WF hWF hltab.1 htpStab.1 hlid
          exact hnotin (this ▸ hl)
        have hml := @mergeLosers_WF losers tpS now table hWF htpStab.1
          htpScl.2 htpStab.2 hids
        exact ⟨hml.1, hml.2, htpScl.2, htpStab.2, mergeLosers_map_id _ _ _ _⟩

theorem nextId_fresh {s : ServiceState} (h : ∀ c ∈ s.table, c.id < s.nextId) :
    s.nextId ∉ s.table.map (·.id) := by
  intro hmem
  rcases List.mem_map.mp hmem with ⟨c, hc, hcid⟩
  exact absurd (hcid ▸ h c hc) (lt_irrefl _)

theorem ids_bound_of_map_eq {t1 t2 : List Contact} {n : Nat}
    (hmap : t1.map (·.id) = t2.map (·.id)) (h : ∀ c ∈ t2, c.id < n) :
    ∀ c ∈ t1, c.id < n := by
  intro c hc
  have hcid : c.id ∈ t2.map (·.id) := by
    rw [← hmap]
    exact List.mem_map.mpr ⟨c, hc, rfl⟩
  rcases List.mem_map.mp hcid with ⟨c0, hc0, hc0id⟩
  exact hc0id ▸ h c0 hc0

/-- C4: every successful identify call preserves the one-hop linkage
invariant: each non-deleted contact is either primary with no `linkedId`, or
secondary pointing at a live primary; merges re-parent the loser's
secondaries to the true primary, so no secondary ever points to a
secondary. -/
theorem claim_C4_one_hop_invariant_preserved {be bp : Option String}
    {now : Nat} {s : ServiceState} {r : IdentifyResponse} {s1 : ServiceState}
    (hWF : WFstate s)
    (hid : identifyContact be bp now s = some (r, s1)) : WFstate s1 := by
  simp only [identifyContact, createPrimaryContact, createSecondaryContact]
    at hid
  split at hid
  · cases hid
  · split at hid
    · -- no match: a fresh primary row is appended
      rcases Option.map_eq_some'.mp hid with ⟨a, _, heq⟩
      obtain ⟨_, rfl⟩ := Prod.mk.injEq .. |>.mp heq
      refine ⟨WFtable_append_primary hWF.1 (nextId_fresh hWF.2) _ _ _, ?_⟩
      intro c hc
      rcases List.mem_append.mp hc with hc | hc
      · exact Nat.lt_succ_of_lt (hWF.2 c hc)
      · rcases List.mem_singleton.mp hc with rfl
        exact Nat.lt_succ_self _
    · -- match found
      split at hid
      · cases hid
      · rename_i tp cl2 tb2 hcol
        have hcs := collisionStep_WF hWF.1 hcol
        simp only [noveltyStep, createSecondaryContact] at hid
        split at hid
        · -- novel input: a fresh secondary row is appended
          rcases Option.map_eq_some'.mp hid with ⟨a, _, heq⟩
          obtain ⟨_, rfl⟩ := Prod.mk.injEq .. |>.mp heq
          constructor
          · apply WFtable_append_secondary hcs.1 hcs.2.1 hcs.2.2.1 hcs.2.2.2.1
            rw [hcs.2.2.2.2]
            exact nextId_fresh hWF.2
          · intro c hc
            rcases List.mem_append.mp hc with hc | hc
            · exact Nat.lt_succ_of_lt
                (ids_bound_of_map_eq hcs.2.2.2.2 hWF.2 c hc)
            · rcases List.mem_singleton.mp hc with rfl
              exact Nat.lt_succ_self _
        · -- nothing novel: only the merge updates happened
          rcases Option.map_eq_some'.mp hid with ⟨a, _, heq⟩
          obtain ⟨_, rfl⟩ := Prod.mk.injEq .. |>.mp heq
          exact ⟨hcs.1, ids_bound_of_map_eq hcs.2.2.2.2 hWF.2⟩

/-! ### Branch characterisations of `identifyContact` -/

theorem trimOrNull_ne_some_empty (o : Option String) :
    trimOrNull o ≠ some "" := by
  unfold trimOrNull
  cases o with
  | none => simp
  | some s =>
    simp only
    split
    · simp
    · rename_i ht
      intro h
      have := Option.some.inj h
      apply ht
      have : (String.mk ((s.data.dropWhile isWsChar).reverse.dropWhile
          isWsChar).reverse).data = ("" : String).data := by rw [this]
      simpa using this

/-- The no-match branch (lines 205-209): one fresh primary row, immediate
response. -/
theorem identifyContact_noMatch {be bp : Option String} {now : Nat}
    {s : ServiceState}
    (hv : ¬(trimOrNull be = none ∧ trimOrNull bp = none))
    (hm : findMatchingContacts (trimOrNull be) (trimOrNull bp) s.table = []) :
    identifyContact be bp now s =
      some (⟨⟨s.nextId, pushVal [] (trimOrNull be), pushVal [] (trimOrNull bp),
              []⟩⟩,
            ⟨s.table ++ [⟨s.nextId, trimOrNull be, trimOrNull bp, none,
              LinkPrecedence.primary, now, now, none⟩], s.nextId + 1⟩) := by
  simp only [identifyContact, createPrimaryContact]
  rw [if_neg hv, hm]
  simp only [List.isEmpty_nil, if_true]
  simp [buildResponse, projLoop, List.find?]

/-- The match branch (lines 211-259): collision resolution followed by the
novelty step. -/
theorem identifyContact_match {be bp : Option String} {now : Nat}
    {s : ServiceState} {m : Contact} {ms : List Contact}
    (hv : ¬(trimOrNull be = none ∧ trimOrNull bp = none))
    (hm : findMatchingContacts (trimOrNull be) (trimOrNull bp) s.table =
      m :: ms) :
    identifyContact be bp now s =
      match collisionStep (m :: ms) now s.table with
      | none => none
      | some (tp, cluster2, table2) =>
        noveltyStep (trimOrNull be) (trimOrNull bp) now s.nextId tp
          cluster2 table2 := by
  simp only [identifyContact]
  rw [if_neg hv, hm]
  rfl

/-- With a single primary in the expanded cluster, collision resolution
mutates nothing (lines 233-235). -/
theorem collisionStep_single {matched : List Contact} {now : Nat}
    {table : List Contact} {p0 : Contact}
    (hone : (fetchFullCluster matched table).filter
        (fun c => c.linkPrecedence == LinkPrecedence.primary) = [p0]) :
    collisionStep matched now table =
      some (p0, fetchFullCluster matched table, table) := by
  simp only [collisionStep]
  rw [hone]
  rfl

/-- Collision resolution never inserts or deletes rows: the table keeps
exactly the same ids in the same order. -/
theorem collisionStep_map_id {matched : List Contact} {now : Nat}
    {table : List Contact} {tp : Contact} {cl2 tb2 : List Contact}
    (h : collisionStep matched now table = some (tp, cl2, tb2)) :
    tb2.map (·.id) = table.map (·.id) := by
  simp only [collisionStep] at h
  split at h
  · split at h
    · cases h
    · simp only [Option.some.injEq, Prod.mk.injEq] at h
      obtain ⟨_, _, rfl⟩ := h
      exact mergeLosers_map_id _ _ _ _
  · split at h
    · cases h
    · simp only [Option.some.injEq, Prod.mk.injEq] at h
      obtain ⟨_, _, rfl⟩ := h
      rfl

/-- C5: when lookup returns no match, identify creates exactly one new
primary contact with no `linkedId` carrying the given identifiers, skips
expansion and collision resolution, and returns the new row's id with no
secondaries. -/
theorem claim_C5_no_match_creates_primary {be bp : Option String} {now : Nat}
    {s : ServiceState}
    (hv : ¬(trimOrNull be = none ∧ trimOrNull bp = none))
    (hm : findMatchingContacts (trimOrNull be) (trimOrNull bp) s.table = []) :
    ∃ r s1, identifyContact be bp now s = some (r, s1) ∧
      r.contact.secondaryContactIds = [] ∧
      r.contact.primaryContatctId = s.nextId ∧
      s1.table = s.table ++ [⟨s.nextId, trimOrNull be, trimOrNull bp, none,
        LinkPrecedence.primary, now, now, none⟩] ∧
      s1.nextId = s.nextId + 1 :=
  ⟨_, _, identifyContact_noMatch hv hm, rfl, rfl, rfl, rfl⟩

/-- C9: tombstoned contacts are invisible: lookup and cluster expansion
return only non-deleted rows, and when every row matching the identifiers is
tombstoned, lookup is empty and a fresh primary is created for those same
identifiers. -/
theorem claim_C9_tombstones_invisible :
    (∀ (e p : Option String) (t : List Contact) (c : Contact),
        c ∈ findMatchingContacts e p t → c.deletedAt = none) ∧
    (∀ (ms t : List Contact) (c : Contact),
        c ∈ fetchFullCluster ms t → c.deletedAt = none) ∧
    (∀ (be bp : Option String) (now : Nat) (s : ServiceState),
        ¬(trimOrNull be = none ∧ trimOrNull bp = none) →
        (∀ c ∈ s.table,
          matchCond (trimOrNull be) (trimOrNull bp) c = true →
          c.deletedAt ≠ none) →
        ∃ r s1, identifyContact be bp now s = some (r, s1) ∧
          r.contact.primaryContatctId = s.nextId ∧
          s1.table = s.table ++ [⟨s.nextId, trimOrNull be, trimOrNull bp,
            none, LinkPrecedence.primary, now, now, none⟩]) := by
  refine ⟨?_, ?_, ?_⟩
  · exact fun e p t c h => (mem_findMatchingContacts h).2.1
  · exact fun ms t c h => (mem_fetchFullCluster h).2
  · intro be bp now s hv htomb
    exact ⟨_, _, identifyContact_noMatch hv (findMatchingContacts_eq_nil htomb),
      rfl, rfl⟩

/-- C10: a single identify call inserts at most one row, always appended
with the fresh id; a merge alone never inserts, it only updates in place. -/
theorem claim_C10_at_most_one_insert {be bp : Option String} {now : Nat}
    {s : ServiceState} {r : IdentifyResponse} {s1 : ServiceState}
    (hid : identifyContact be bp now s = some (r, s1)) :
    (s1.table.map (·.id) = s.table.map (·.id) ∧ s1.nextId = s.nextId) ∨
    (s1.table.map (·.id) = s.table.map (·.id) ++ [s.nextId] ∧
      s1.nextId = s.nextId + 1) := by
  simp only [identifyContact, createPrimaryContact] at hid
  split at hid
  · cases hid
  · split at hid
    · rcases Option.map_eq_some'.mp hid with ⟨a, _, heq⟩
      obtain ⟨_, rfl⟩ := Prod.mk.injEq .. |>.mp heq
      right
      simp
    · split at hid
      · cases hid
      · rename_i tp cl2 tb2 hcol
        have hmap := collisionStep_map_id hcol
        simp only [noveltyStep, createSecondaryContact] at hid
        split at hid
        · rcases Option.map_eq_some'.mp hid with ⟨a, _, heq⟩
          obtain ⟨_, rfl⟩ := Prod.mk.injEq .. |>.mp heq
          right
          simp [hmap]
        · rcases Option.map_eq_some'.mp hid with ⟨a, _, heq⟩
          obtain ⟨_, rfl⟩ := Prod.mk.injEq .. |>.mp heq
          exact Or.inl ⟨hmap, rfl⟩

/-- C1 (counterexample): the code sorts the colliding primaries by
`createdAt` only; with equal `createdAt` the cluster's query order decides,
not the id.  On a well-formed store holding two primaries with equal
`createdAt` returned in the order id 2, id 1, the code keeps id 2 as the
true primary while the claimed (`createdAt`, `id`) order picks id 1. -/
theorem claim_C1_counterexample :
    WFstate ⟨[⟨2, some "b", some "9", none, LinkPrecedence.primary, 5, 5, none⟩,
      ⟨1, some "a", none, none, LinkPrecedence.primary, 5, 5, none⟩], 3⟩ ∧
    ((identifyContact (some "a") (some "9") 10
        ⟨[⟨2, some "b", some "9", none, LinkPrecedence.primary, 5, 5, none⟩,
          ⟨1, some "a", none, none, LinkPrecedence.primary, 5, 5, none⟩],
         3⟩).map (fun x => x.1.contact.primaryContatctId) = some 2) ∧
    ((claimTruePrimary ((fetchFullCluster
        (findMatchingContacts (some "a") (some "9")
          [⟨2, some "b", some "9", none, LinkPrecedence.primary, 5, 5, none⟩,
           ⟨1, some "a", none, none, LinkPrecedence.primary, 5, 5, none⟩])
        [⟨2, some "b", some "9", none, LinkPrecedence.primary, 5, 5, none⟩,
         ⟨1, some "a", none, none, LinkPrecedence.primary, 5, 5, none⟩]).filter
        (fun c => c.linkPrecedence == LinkPrecedence.primary))).map (·.id) =
      some 1) ∧
    (2 : Nat) ≠ 1 :=
  ⟨by decide, by decide, by decide, by decide⟩

/-- C1 (amended): when collision resolution runs, the chosen true primary is
a primary of the expanded cluster with minimal `createdAt`; ties are kept in
the cluster's query order (stable sort), with no id tie-break. -/
theorem claim_C1_amended_oldest_primary_wins {matched : List Contact}
    {now : Nat} {table : List Contact} {tp : Contact} {cl2 tb2 : List Contact}
    (h : collisionStep matched now table = some (tp, cl2, tb2)) :
    tp ∈ fetchFullCluster matched table ∧
    tp.linkPrecedence = LinkPrecedence.primary ∧
    ∀ q ∈ fetchFullCluster matched table,
      q.linkPrecedence = LinkPrecedence.primary →
      tp.createdAt ≤ q.createdAt := by
  simp only [collisionStep] at h
  cases hpm : List.filter (fun c => c.linkPrecedence == LinkPrecedence.primary)
      (fetchFullCluster matched table) with
  | nil => rw [hpm] at h; simp at h
  | cons p rest =>
    rw [hpm] at h
    by_cases hrest : rest = []
    · subst hrest
      rw [if_neg (by simp)] at h
      simp only [Option.some.injEq, Prod.mk.injEq] at h
      obtain ⟨rfl, rfl, rfl⟩ := h
      have hpmem : p ∈ List.filter
          (fun c => c.linkPrecedence == LinkPrecedence.primary)
          (fetchFullCluster matched table) := by
        rw [hpm]; exact List.mem_cons_self _ _
      have hpcl := mem_primaries hpmem
      refine ⟨hpcl.1, hpcl.2, ?_⟩
      intro q hq hqP
      have hqf : q ∈ List.filter
          (fun c => c.linkPrecedence == LinkPrecedence.primary)
          (fetchFullCluster matched table) :=
        List.mem_filter.mpr ⟨hq, by simp [hqP]⟩
      rw [hpm] at hqf
      rcases List.mem_singleton.mp hqf with rfl
      exact Nat.le_refl _
    · rw [if_pos (by simpa using List.length_pos.mpr hrest)] at h
      cases hsort : sortByCreatedAt (p :: rest) with
      | nil =>
        have := sortByCreatedAt_length (p :: rest)
        rw [hsort] at this
        simp at this
      | cons tpS losers =>
        rw [hsort] at h
        simp only [Option.some.injEq, Prod.mk.injEq] at h
        obtain ⟨rfl, rfl, rfl⟩ := h
        have htpSp : tpS ∈ List.filter
            (fun c => c.linkPrecedence == LinkPrecedence.primary)
            (fetchFullCluster matched table) := by
          rw [hpm]
          exact mem_sortByCreatedAt.mp (hsort ▸ List.mem_cons_self _ _)
        have hmin := sortByCreatedAt_head_min hsort
        refine ⟨(mem_primaries htpSp).1, (mem_primaries htpSp).2, ?_⟩
        intro q hq hqP
        have hqf : q ∈ List.filter
            (fun c => c.linkPrecedence == LinkPrecedence.primary)
            (fetchFullCluster matched table) :=
          List.mem_filter.mpr ⟨hq, by simp [hqP]⟩
        rw [hpm] at hqf
        exact hmin q hqf

theorem claim_C1_amended_witness :
    (⟨1, some "a", none, none, LinkPrecedence.primary, 0, 0, none⟩ : Contact) ∈
      fetchFullCluster
        (findMatchingContacts (some "a") (some "9")
          [⟨1, some "a", none, none, LinkPrecedence.primary, 0, 0, none⟩,
           ⟨2, some "b", some "9", none, LinkPrecedence.primary, 1, 1, none⟩,
           ⟨3, some "c", none, some 2, LinkPrecedence.secondary, 2, 2, none⟩])
        [⟨1, some "a", none, none, LinkPrecedence.primary, 0, 0, none⟩,
         ⟨2, some "b", some "9", none, LinkPrecedence.primary, 1, 1, none⟩,
         ⟨3, some "c", none, some 2, LinkPrecedence.secondary, 2, 2, none⟩] ∧
    (⟨1, some "a", none, none, LinkPrecedence.primary, 0, 0,
      none⟩ : Contact).linkPrecedence = LinkPrecedence.primary ∧
    ∀ q ∈ fetchFullCluster
        (findMatchingContacts (some "a") (some "9")
          [⟨1, some "a", none, none, LinkPrecedence.primary, 0, 0, none⟩,
           ⟨2, some "b", some "9", none, LinkPrecedence.primary, 1, 1, none⟩,
           ⟨3, some "c", none, some 2, LinkPrecedence.secondary, 2, 2, none⟩])
        [⟨1, some "a", none, none, LinkPrecedence.primary, 0, 0, none⟩,
         ⟨2, some "b", some "9", none, LinkPrecedence.primary, 1, 1, none⟩,
         ⟨3, some "c", none, some 2, LinkPrecedence.secondary, 2, 2, none⟩],
      q.linkPrecedence = LinkPrecedence.primary →
      (⟨1, some "a", none, none, LinkPrecedence.primary, 0, 0,
        none⟩ : Contact).createdAt ≤ q.createdAt :=
  claim_C1_amended_oldest_primary_wins
    (show collisionStep
        (findMatchingContacts (some "a") (some "9")
          [⟨1, some "a", none, none, LinkPrecedence.primary, 0, 0, none⟩,
           ⟨2, some "b", some "9", none, LinkPrecedence.primary, 1, 1, none⟩,
           ⟨3, some "c", none, some 2, LinkPrecedence.secondary, 2, 2, none⟩])
        5
        [⟨1, some "a", none, none, LinkPrecedence.primary, 0, 0, none⟩,
         ⟨2, some "b", some "9", none, LinkPrecedence.primary, 1, 1, none⟩,
         ⟨3, some "c", none, some 2, LinkPrecedence.secondary, 2, 2, none⟩] =
      some (⟨1, some "a", none, none, LinkPrecedence.primary, 0, 0, none⟩,
        [⟨1, some "a", none, none, LinkPrecedence.primary, 0, 0, none⟩,
         ⟨2, some "b", some "9", some 1, LinkPrecedence.secondary, 1, 5, none⟩,
         ⟨3, some "c", none, some 1, LinkPrecedence.secondary, 2, 5, none⟩],
        [⟨1, some "a", none, none, LinkPrecedence.primary, 0, 0, none⟩,
         ⟨2, some "b", some "9", some 1, LinkPrecedence.secondary, 1, 5, none⟩,
         ⟨3, some "c", none, some 1, LinkPrecedence.secondary, 2, 5, none⟩])
      from by decide)

theorem claim_C4_witness :
    WFstate ⟨[⟨1, some "a", none, none, LinkPrecedence.primary, 0, 0, none⟩,
      ⟨2, some "b", some "9", some 1, LinkPrecedence.secondary, 1, 5, none⟩,
      ⟨3, some "c", none, some 1, LinkPrecedence.secondary, 2, 5, none⟩],
      4⟩ :=
  claim_C4_one_hop_invariant_preserved (by decide)
    (show identifyContact (some "a") (some "9") 5
        ⟨[⟨1, some "a", none, none, LinkPrecedence.primary, 0, 0, none⟩,
          ⟨2, some "b", some "9", none, LinkPrecedence.primary, 1, 1, none⟩,
          ⟨3, some "c", none, some 2, LinkPrecedence.secondary, 2, 2, none⟩],
         4⟩ =
      some (⟨⟨1, ["a", "b", "c"], ["9"], [2, 3]⟩⟩,
        ⟨[⟨1, some "a", none, none, LinkPrecedence.primary, 0, 0, none⟩,
          ⟨2, some "b", some "9", some 1, LinkPrecedence.secondary, 1, 5,
            none⟩,
          ⟨3, some "c", none, some 1, LinkPrecedence.secondary, 2, 5, none⟩],
         4⟩)
      from by decide)

theorem claim_C5_witness :
    ∃ r s1, identifyContact (some "x@y") none 3 ⟨[], 5⟩ = some (r, s1) ∧
      r.contact.secondaryContactIds = [] ∧
      r.contact.primaryContatctId = 5 ∧
      s1.table = [] ++ [⟨5, some "x@y", none, none, LinkPrecedence.primary,
        3, 3, none⟩] ∧
      s1.nextId = 5 + 1 :=
  claim_C5_no_match_creates_primary (by decide) (by decide)

theorem claim_C9_witness :
    ∃ r s1, identifyContact (some "a") none 4
        ⟨[⟨1, some "a", none, none, LinkPrecedence.primary, 0, 0, some 3⟩],
         2⟩ = some (r, s1) ∧
      r.contact.primaryContatctId = 2 ∧
      s1.table = [⟨1, some "a", none, none, LinkPrecedence.primary, 0, 0,
        some 3⟩] ++ [⟨2, some "a", none, none, LinkPrecedence.primary, 4, 4,
        none⟩] :=
  claim_C9_tombstones_invisible.2.2 (some "a") none 4
    ⟨[⟨1, some "a", none, none, LinkPrecedence.primary, 0, 0, some 3⟩], 2⟩
    (by decide) (by decide)

theorem claim_C10_witness :
    (([⟨1, some "a", none, none, LinkPrecedence.primary, 0, 0, none⟩,
       ⟨2, some "b", some "9", some 1, LinkPrecedence.secondary, 1, 5, none⟩,
       ⟨3, some "c", none, some 1, LinkPrecedence.secondary, 2, 5,
        none⟩] : List Contact).map (·.id) =
      ([⟨1, some "a", none, none, LinkPrecedence.primary, 0, 0, none⟩,
        ⟨2, some "b", some "9", none, LinkPrecedence.primary, 1, 1, none⟩,
        ⟨3, some "c", none, some 2, LinkPrecedence.secondary, 2, 2,
         none⟩] : List Contact).map (·.id) ∧ (4 : Nat) = 4) ∨
    (([⟨1, some "a", none, none, LinkPrecedence.primary, 0, 0, none⟩,
       ⟨2, some "b", some "9", some 1, LinkPrecedence.secondary, 1, 5, none⟩,
       ⟨3, some "c", none, some 1, LinkPrecedence.secondary, 2, 5,
        none⟩] : List Contact).map (·.id) =
      ([⟨1, some "a", none, none, LinkPrecedence.primary, 0, 0, none⟩,
        ⟨2, some "b", some "9", none, LinkPrecedence.primary, 1, 1, none⟩,
        ⟨3, some "c", none, some 2, LinkPrecedence.secondary, 2, 2,
         none⟩] : List Contact).map (·.id) ++ [4] ∧ (4 : Nat) = 4 + 1) :=
  claim_C10_at_most_one_insert
    (show identifyContact (some "a") (some "9") 5
        ⟨[⟨1, some "a", none, none, LinkPrecedence.primary, 0, 0, none⟩,
          ⟨2, some "b", some "9", none, LinkPrecedence.primary, 1, 1, none⟩,
          ⟨3, some "c", none, some 2, LinkPrecedence.secondary, 2, 2, none⟩],
         4⟩ =
      some (⟨⟨1, ["a", "b", "c"], ["9"], [2, 3]⟩⟩,
        ⟨[⟨1, some "a", none, none, LinkPrecedence.primary, 0, 0, none⟩,
          ⟨2, some "b", some "9", some 1, LinkPrecedence.secondary, 1, 5,
            none⟩,
          ⟨3, some "c", none, some 1, LinkPrecedence.secondary, 2, 5, none⟩],
         4⟩)
      from by decide)

/-- C2 (counterexample): the value identify returns is not a top-level
record with fields primaryContactId/emails/phoneNumbers/secondaryContactIds:
its single top-level field is `contact`, and the nested id field is spelled
`primaryContatctId` (as the repository README also documents). -/
theorem claim_C2_counterexample :
    ∃ r s1, identifyContact (some "a@b") (some "123") 7 ⟨[], 1⟩ =
        some (r, s1) ∧
      topKeys (encodeResponse r) ≠
        ["primaryContactId", "emails", "phoneNumbers",
         "secondaryContactIds"] ∧
      topKeys (encodeResponse r) = ["contact"] :=
  ⟨⟨⟨1, ["a@b"], ["123"], []⟩⟩,
   ⟨[⟨1, some "a@b", some "123", none, LinkPrecedence.primary, 7, 7, none⟩],
    2⟩,
   by decide, by decide, rfl⟩

/-- C2 (amended): every value identify returns serialises as a JSON object
with the single top-level field `contact`, whose value is an object with
exactly the fields `primaryContatctId`, `emails`, `phoneNumbers`,
`secondaryContactIds`, in that order. -/
theorem claim_C2_amended_response_shape {be bp : Option String} {now : Nat}
    {s : ServiceState} {r : IdentifyResponse} {s1 : ServiceState}
    (_hid : identifyContact be bp now s = some (r, s1)) :
    topKeys (encodeResponse r) = ["contact"] ∧
    (jGet (encodeResponse r) "contact").map topKeys =
      some ["primaryContatctId", "emails", "phoneNumbers",
        "secondaryContactIds"] :=
  ⟨rfl, rfl⟩

theorem claim_C2_amended_witness :
    topKeys (encodeResponse ⟨⟨1, ["a@b"], ["123"], []⟩⟩) = ["contact"] ∧
    (jGet (encodeResponse ⟨⟨1, ["a@b"], ["123"], []⟩⟩) "contact").map topKeys =
      some ["primaryContatctId", "emails", "phoneNumbers",
        "secondaryContactIds"] :=
  claim_C2_amended_response_shape
    (show identifyContact (some "a@b") (some "123") 7 ⟨[], 1⟩ =
      some (⟨⟨1, ["a@b"], ["123"], []⟩⟩,
        ⟨[⟨1, some "a@b", some "123", none, LinkPrecedence.primary, 7, 7,
          none⟩], 2⟩)
      from by decide)

/-- C3: when the identifiers already fully match an existing unified cluster
(lookup non-empty, a single primary, email and phone both already present),
identify mutates nothing — the state is returned unchanged whatever the
timestamp — so a repeated call returns the identical response and inserts
zero rows. -/
theorem claim_C3_exact_reidentify_idempotent {be bp : Option String}
    {s : ServiceState} {cluster : List Contact} {p0 : Contact}
    (hv : ¬(trimOrNull be = none ∧ trimOrNull bp = none))
    (hcl : fetchFullCluster
        (findMatchingContacts (trimOrNull be) (trimOrNull bp) s.table)
        s.table = cluster)
    (hone : cluster.filter
        (fun c => c.linkPrecedence == LinkPrecedence.primary) = [p0])
    (hm : findMatchingContacts (trimOrNull be) (trimOrNull bp) s.table ≠ [])
    (hemail : ∀ v, trimOrNull be = some v → v ∈ clusterEmailValues cluster)
    (hphone : ∀ v, trimOrNull bp = some v → v ∈ clusterPhoneValues cluster) :
    ∃ r, ∀ now, identifyContact be bp now s = some (r, s) := by
  cases hmm : findMatchingContacts (trimOrNull be) (trimOrNull bp) s.table
    with
  | nil => exact absurd hmm hm
  | cons m ms =>
    have hc2 : fetchFullCluster (m :: ms) s.table = cluster := by
      rw [← hmm, hcl]
    have hone' : (fetchFullCluster (m :: ms) s.table).filter
        (fun c => c.linkPrecedence == LinkPrecedence.primary) = [p0] := by
      rw [hc2]; exact hone
    have hp0mem : p0 ∈ cluster :=
      List.mem_of_mem_filter (hone ▸ List.mem_cons_self p0 [])
    have hfind : ∃ x, cluster.find? (fun c => c.id == p0.id) = some x := by
      apply Option.isSome_iff_exists.mp
      rw [List.find?_isSome]
      exact ⟨p0, hp0mem, by simp⟩
    have hbr : ∃ resp, buildResponse cluster p0.id = some resp := by
      rcases hfind with ⟨x, hx⟩
      unfold buildResponse
      rw [hx]
      exact ⟨_, rfl⟩
    rcases hbr with ⟨resp, hresp⟩
    refine ⟨resp, fun now => ?_⟩
    rw [identifyContact_match hv hmm, collisionStep_single hone']
    simp only [noveltyStep, hc2]
    have hA : (match trimOrNull be with
        | some v => !((clusterEmailValues cluster).contains v)
        | none => false) = false := by
      cases hbe : trimOrNull be with
      | none => rfl
      | some v => simp [hemail v hbe]
    have hB : (match trimOrNull bp with
        | some v => !((clusterPhoneValues cluster).contains v)
        | none => false) = false := by
      cases hbp : trimOrNull bp with
      | none => rfl
      | some v => simp [hphone v hbp]
    rw [hA, hB]
    simp only [Bool.or_self, Bool.false_eq_true, if_false]
    rw [hresp]
    rfl

theorem claim_C3_witness :
    ∃ r, ∀ now, identifyContact (some "a@b") (some "123") now
        ⟨[⟨1, some "a@b", some "123", none, LinkPrecedence.primary, 0, 0,
          none⟩], 2⟩ =
      some (r, ⟨[⟨1, some "a@b", some "123", none, LinkPrecedence.primary,
        0, 0, none⟩], 2⟩) :=
  claim_C3_exact_reidentify_idempotent
    (by decide)
    (show fetchFullCluster
        (findMatchingContacts (trimOrNull (some "a@b"))
          (trimOrNull (some "123"))
          [⟨1, some "a@b", some "123", none, LinkPrecedence.primary, 0, 0,
            none⟩])
        [⟨1, some "a@b", some "123", none, LinkPrecedence.primary, 0, 0,
          none⟩] =
      [⟨1, some "a@b", some "123", none, LinkPrecedence.primary, 0, 0, none⟩]
      from by decide)
    (show ([⟨1, some "a@b", some "123", none, LinkPrecedence.primary, 0, 0,
          none⟩] : List Contact).filter
        (fun c => c.linkPrecedence == LinkPrecedence.primary) =
      [⟨1, some "a@b", some "123", none, LinkPrecedence.primary, 0, 0, none⟩]
      from by decide)
    (by decide)
    (fun v hv2 => by
      have h0 : trimOrNull (some "a@b") = some "a@b" := by decide
      rw [h0] at hv2
      have h1 := Option.some.inj hv2
      subst h1
      decide)
    (fun v hv2 => by
      have h0 : trimOrNull (some "123") = some "123" := by decide
      rw [h0] at hv2
      have h1 := Option.some.inj hv2
      subst h1
      decide)

theorem identifyContact_match_some {be bp : Option String} {now : Nat}
    {s : ServiceState} {m : Contact} {ms : List Contact}
    {tp : Contact} {cl2 tb2 : List Contact}
    (hv : ¬(trimOrNull be = none ∧ trimOrNull bp = none))
    (hmm : findMatchingContacts (trimOrNull be) (trimOrNull bp) s.table =
      m :: ms)
    (hcol : collisionStep (m :: ms) now s.table = some (tp, cl2, tb2)) :
    identifyContact be bp now s =
      noveltyStep (trimOrNull be) (trimOrNull bp) now s.nextId tp cl2 tb2 :=
  by rw [identifyContact_match hv hmm, hcol]

theorem novelBool_iff (o : Option String) (l : List String) :
    ((match o with
      | some v => !(l.contains v)
      | none => false) = true) ↔
    (match o with
     | some v => v ∉ l
     | none => False) := by
  cases o <;> simp

/-- C6: after collision resolution, a new secondary contact linked to the
true primary is created iff the trimmed email is non-null and absent from
the unified cluster's emails, or the trimmed phone is non-null and absent
from its phone numbers; otherwise no record is created. -/
theorem claim_C6_secondary_iff_novel {be bp : Option String} {now : Nat}
    {s : ServiceState} {r : IdentifyResponse} {s1 : ServiceState}
    {tp : Contact} {cl2 tb2 : List Contact}
    (hv : ¬(trimOrNull be = none ∧ trimOrNull bp = none))
    (hcol : collisionStep
        (findMatchingContacts (trimOrNull be) (trimOrNull bp) s.table) now
        s.table = some (tp, cl2, tb2))
    (hm : findMatchingContacts (trimOrNull be) (trimOrNull bp) s.table ≠ [])
    (hid : identifyContact be bp now s = some (r, s1)) :
    (((match trimOrNull be with
       | some v => v ∉ clusterEmailValues cl2
       | none => False) ∨
      (match trimOrNull bp with
       | some v => v ∉ clusterPhoneValues cl2
       | none => False)) →
      s1.table = tb2 ++ [⟨s.nextId, trimOrNull be, trimOrNull bp, some tp.id,
        LinkPrecedence.secondary, now, now, none⟩] ∧
      s1.nextId = s.nextId + 1) ∧
    (¬((match trimOrNull be with
       | some v => v ∉ clusterEmailValues cl2
       | none => False) ∨
      (match trimOrNull bp with
       | some v => v ∉ clusterPhoneValues cl2
       | none => False)) →
      s1.table = tb2 ∧ s1.nextId = s.nextId) := by
  cases hmm : findMatchingContacts (trimOrNull be) (trimOrNull bp) s.table
    with
  | nil => exact absurd hmm hm
  | cons m ms =>
    have hcol' : collisionStep (m :: ms) now s.table = some (tp, cl2, tb2) :=
      by rw [← hmm]; exact hcol
    have hid2 : noveltyStep (trimOrNull be) (trimOrNull bp) now s.nextId tp
        cl2 tb2 = some (r, s1) := by
      rw [← identifyContact_match_some hv hmm hcol']
      exact hid
    simp only [noveltyStep, createSecondaryContact] at hid2
    have hiff : ((match trimOrNull be with
        | some v => !((clusterEmailValues cl2).contains v)
        | none => false) ||
       (match trimOrNull bp with
        | some v => !((clusterPhoneValues cl2).contains v)
        | none => false)) = true ↔
        ((match trimOrNull be with
          | some v => v ∉ clusterEmailValues cl2
          | none => False) ∨
         (match trimOrNull bp with
          | some v => v ∉ clusterPhoneValues cl2
          | none => False)) := by
      rw [Bool.or_eq_true, novelBool_iff, novelBool_iff]
    by_cases hnov : ((match trimOrNull be with
        | some v => v ∉ clusterEmailValues cl2
        | none => False) ∨
       (match trimOrNull bp with
        | some v => v ∉ clusterPhoneValues cl2
        | none => False))
    · rw [if_pos (hiff.mpr hnov)] at hid2
      rcases Option.map_eq_some'.mp hid2 with ⟨a, _, heq⟩
      obtain ⟨_, h2⟩ := Prod.mk.injEq .. |>.mp heq
      refine ⟨fun _ => ?_, fun hn => absurd hnov hn⟩
      rw [← h2]
      exact ⟨rfl, rfl⟩
    · rw [if_neg (fun hb => hnov (hiff.mp hb))] at hid2
      rcases Option.map_eq_some'.mp hid2 with ⟨a, _, heq⟩
      obtain ⟨_, h2⟩ := Prod.mk.injEq .. |>.mp heq
      refine ⟨fun h => absurd h hnov, fun _ => ?_⟩
      rw [← h2]
      exact ⟨rfl, rfl⟩

theorem claim_C6_witness :
    (((match trimOrNull (some "b") with
       | some v => v ∉ clusterEmailValues
          [⟨1, some "a", some "1", none, LinkPrecedence.primary, 0, 0, none⟩]
       | none => False) ∨
      (match trimOrNull (some "1") with
       | some v => v ∉ clusterPhoneValues
          [⟨1, some "a", some "1", none, LinkPrecedence.primary, 0, 0, none⟩]
       | none => False)) →
      ({ table := [⟨1, some "a", some "1", none, LinkPrecedence.primary, 0,
          0, none⟩, ⟨2, some "b", some "1", some 1,
          LinkPrecedence.secondary, 7, 7, none⟩],
         nextId := 3 } : ServiceState).table =
        [⟨1, some "a", some "1", none, LinkPrecedence.primary, 0, 0, none⟩]
          ++ [⟨2, trimOrNull (some "b"), trimOrNull (some "1"), some 1,
              LinkPrecedence.secondary, 7, 7, none⟩] ∧
      ({ table := [⟨1, some "a", some "1", none, LinkPrecedence.primary, 0,
          0, none⟩, ⟨2, some "b", some "1", some 1,
          LinkPrecedence.secondary, 7, 7, none⟩],
         nextId := 3 } : ServiceState).nextId = 2 + 1) ∧
    (¬((match trimOrNull (some "b") with
       | some v => v ∉ clusterEmailValues
          [⟨1, some "a", some "1", none, LinkPrecedence.primary, 0, 0, none⟩]
       | none => False) ∨
      (match trimOrNull (some "1") with
       | some v => v ∉ clusterPhoneValues
          [⟨1, some "a", some "1", none, LinkPrecedence.primary, 0, 0, none⟩]
       | none => False)) →
      ({ table := [⟨1, some "a", some "1", none, LinkPrecedence.primary, 0,
          0, none⟩, ⟨2, some "b", some "1", some 1,
          LinkPrecedence.secondary, 7, 7, none⟩],
         nextId := 3 } : ServiceState).table =
        [⟨1, some "a", some "1", none, LinkPrecedence.primary, 0, 0, none⟩] ∧
      ({ table := [⟨1, some "a", some "1", none, LinkPrecedence.primary, 0,
          0, none⟩, ⟨2, some "b", some "1", some 1,
          LinkPrecedence.secondary, 7, 7, none⟩],
         nextId := 3 } : ServiceState).nextId = 2) :=
  claim_C6_secondary_iff_novel
    (by decide)
    (show collisionStep
        (findMatchingContacts (trimOrNull (some "b")) (trimOrNull (some "1"))
          [⟨1, some "a", some "1", none, LinkPrecedence.primary, 0, 0,
            none⟩]) 7
        [⟨1, some "a", some "1", none, LinkPrecedence.primary, 0, 0, none⟩] =
      some (⟨1, some "a", some "1", none, LinkPrecedence.primary, 0, 0,
          none⟩,
        [⟨1, some "a", some "1", none, LinkPrecedence.primary, 0, 0, none⟩],
        [⟨1, some "a", some "1", none, LinkPrecedence.primary, 0, 0, none⟩])
      from by decide)
    (by decide)
    (show identifyContact (some "b") (some "1") 7
        ⟨[⟨1, some "a", some "1", none, LinkPrecedence.primary, 0, 0,
          none⟩], 2⟩ =
      some (⟨⟨1, ["a", "b"], ["1"], [2]⟩⟩,
        ⟨[⟨1, some "a", some "1", none, LinkPrecedence.primary, 0, 0, none⟩,
          ⟨2, some "b", some "1", some 1, LinkPrecedence.secondary, 7, 7,
            none⟩], 3⟩)
      from by decide)

theorem projLoop_eq (cs : List Contact) (es ps : List String)
    (ids : List Nat) :
    projLoop cs (es, ps, ids) =
      ((cs.map (·.email)).foldl pushVal es,
       (cs.map (·.phoneNumber)).foldl pushVal ps,
       ids ++ cs.map (·.id)) := by
  induction cs generalizing es ps ids with
  | nil => simp [projLoop]
  | cons c rest ih =>
    simp only [projLoop, List.map_cons, List.foldl_cons]
    rw [ih]
    simp

theorem foldl_pushVal_eq_spec {vals : List (Option String)}
    (h : ∀ v ∈ vals, v ≠ some "") :
    ∀ acc, vals.foldl pushVal acc = vals.foldl specAppendVal acc := by
  induction vals with
  | nil => intro acc; rfl
  | cons v rest ih =>
    intro acc
    have hv : pushVal acc v = specAppendVal acc v := by
      cases v with
      | none => rfl
      | some x =>
        have hx : ¬(x = "") := by
          intro he
          exact (h _ (List.mem_cons_self _ _)) (by rw [he])
        simp [pushVal, specAppendVal, hx]
    rw [List.foldl_cons, List.foldl_cons, hv]
    exact ih (fun v2 hv2 => h v2 (List.mem_cons_of_mem _ hv2)) _

theorem pushVal_nil_eq {v : Option String} (h : v ≠ some "") :
    pushVal [] v = v.toList := by
  cases v with
  | none => rfl
  | some x =>
    have hx : ¬(x = "") := fun he => h (by rw [he])
    simp [pushVal, Option.toList, hx]

/-- C7: for a cluster that contains no empty-string identifiers (the system
never stores any, inputs being trimmed), the projection returns the primary's
id, the email and phone lists worded by the spec (primary's own value first,
then each secondary's in cluster order, nulls and already-added duplicates
skipped), and every non-primary contact's id in cluster order. -/
theorem claim_C7_projection {allContacts : List Contact} {primaryId : Nat}
    {primary : Contact}
    (hfind : allContacts.find? (fun c => c.id == primaryId) = some primary)
    (hne : ∀ c ∈ allContacts, c.email ≠ some "" ∧ c.phoneNumber ≠ some "") :
    buildResponse allContacts primaryId = some
      ⟨⟨primaryId,
        specValueList primary.email
          ((allContacts.filter fun c => !(c.id == primaryId)).map (·.email)),
        specValueList primary.phoneNumber
          ((allContacts.filter fun c => !(c.id == primaryId)).map
            (·.phoneNumber)),
        (allContacts.filter fun c => !(c.id == primaryId)).map (·.id)⟩⟩ := by
  have hpmem : primary ∈ allContacts := List.mem_of_find?_eq_some hfind
  have hpe : primary.email ≠ some "" := (hne primary hpmem).1
  have hpp : primary.phoneNumber ≠ some "" := (hne primary hpmem).2
  have hev : ∀ v ∈ (allContacts.filter
      fun c => !(c.id == primaryId)).map (·.email), v ≠ some "" := by
    intro v hv
    rcases List.mem_map.mp hv with ⟨c, hc, rfl⟩
    exact (hne c (List.mem_of_mem_filter hc)).1
  have hpv : ∀ v ∈ (allContacts.filter
      fun c => !(c.id == primaryId)).map (·.phoneNumber), v ≠ some "" := by
    intro v hv
    rcases List.mem_map.mp hv with ⟨c, hc, rfl⟩
    exact (hne c (List.mem_of_mem_filter hc)).2
  have hb : buildResponse allContacts primaryId = some
      ⟨⟨primaryId,
        (projLoop (allContacts.filter fun c => !(c.id == primaryId))
          (pushVal [] primary.email, pushVal [] primary.phoneNumber, [])).1,
        (projLoop (allContacts.filter fun c => !(c.id == primaryId))
          (pushVal [] primary.email, pushVal [] primary.phoneNumber,
            [])).2.1,
        (projLoop (allContacts.filter fun c => !(c.id == primaryId))
          (pushVal [] primary.email, pushVal [] primary.phoneNumber,
            [])).2.2⟩⟩ := by
    unfold buildResponse
    rw [hfind]
  rw [hb, projLoop_eq]
  rw [pushVal_nil_eq hpe, pushVal_nil_eq hpp,
    foldl_pushVal_eq_spec hev, foldl_pushVal_eq_spec hpv]
  simp [specValueList]

theorem claim_C7_witness :
    buildResponse
      [⟨1, some "a", some "9", none, LinkPrecedence.primary, 0, 0, none⟩,
       ⟨2, some "b", none, some 1, LinkPrecedence.secondary, 1, 1, none⟩,
       ⟨3, some "a", some "7", some 1, LinkPrecedence.secondary, 2, 2,
        none⟩] 1 = some
      ⟨⟨1,
        specValueList (some "a")
          ((([⟨1, some "a", some "9", none, LinkPrecedence.primary, 0, 0,
              none⟩,
             ⟨2, some "b", none, some 1, LinkPrecedence.secondary, 1, 1,
              none⟩,
             ⟨3, some "a", some "7", some 1, LinkPrecedence.secondary, 2, 2,
              none⟩] : List Contact).filter
            fun c => !(c.id == 1)).map (·.email)),
        specValueList (some "9")
          ((([⟨1, some "a", some "9", none, LinkPrecedence.primary, 0, 0,
              none⟩,
             ⟨2, some "b", none, some 1, LinkPrecedence.secondary, 1, 1,
              none⟩,
             ⟨3, some "a", some "7", some 1, LinkPrecedence.secondary, 2, 2,
              none⟩] : List Contact).filter
            fun c => !(c.id == 1)).map (·.phoneNumber)),
        (([⟨1, some "a", some "9", none, LinkPrecedence.primary, 0, 0,
            none⟩,
           ⟨2, some "b", none, some 1, LinkPrecedence.secondary, 1, 1,
            none⟩,
           ⟨3, some "a", some "7", some 1, LinkPrecedence.secondary, 2, 2,
            none⟩] : List Contact).filter
          fun c => !(c.id == 1)).map (·.id)⟩⟩ :=
  claim_C7_projection
    (show ([⟨1, some "a", some "9", none, LinkPrecedence.primary, 0, 0,
        none⟩,
       ⟨2, some "b", none, some 1, LinkPrecedence.secondary, 1, 1, none⟩,
       ⟨3, some "a", some "7", some 1, LinkPrecedence.secondary, 2, 2,
        none⟩] : List Contact).find? (fun c => c.id == 1) =
      some ⟨1, some "a", some "9", none, LinkPrecedence.primary, 0, 0, none⟩
      from by decide)
    (by decide)

/-! ### Lemmas about the transaction-trace model -/

theorem txOp_ok {oracle : Nat → Bool} {name : String} {run run2 : TxRun}
    (h : txOp oracle name run = Except.ok run2) :
    run2.trace = run.trace ++ [name] := by
  unfold txOp at h
  split at h
  · cases h
  · cases h
    rfl

theorem txOp_error {oracle : Nat → Bool} {name : String} {run : TxRun}
    {i : Nat} {run2 : TxRun}
    (h : txOp oracle name run = Except.error (i, run2)) :
    oracle i = true ∧ run2.trace = run.trace ++ [name] := by
  unfold txOp at h
  split at h
  · rename_i hor
    cases h
    exact ⟨hor, rfl⟩
  · cases h

theorem getLast?_append_pair (xs : List String) (a b : String) :
    (xs ++ [a, b]).getLast? = some b := by
  have : xs ++ [a, b] = (xs ++ [a]) ++ [b] := by simp
  rw [this]
  exact List.getLast?_concat _

/-- Everything the claim needs of an abort outcome. -/
theorem abortTx_spec (s : ServiceState) (i0 : Nat) (run : TxRun) :
    (abortTx s i0 run).trace.getLast? = some "release" ∧
    (abortTx s i0 run).durable = s ∧
    "ROLLBACK" ∈ (abortTx s i0 run).trace ∧
    (∀ i, (abortTx s i0 run).result = Except.error (TxError.storage i) →
      i = i0) ∧
    (∀ r, (abortTx s i0 run).result ≠ Except.ok r) := by
  refine ⟨getLast?_append_pair _ _ _, rfl, ?_, ?_, ?_⟩
  · exact List.mem_append_right _ (List.mem_cons_self _ _)
  · intro i h
    simp only [abortTx, Except.error.injEq, TxError.storage.injEq] at h
    exact h.symm
  · intro r h
    simp [abortTx] at h

theorem mergeLosersTx_error {oracle : Nat → Bool} {tpId now : Nat} :
    ∀ (losers t : List Contact) (run : TxRun) (i : Nat) (run2 : TxRun),
      mergeLosersTx oracle tpId now losers t run = Except.error (i, run2) →
      oracle i = true := by
  intro losers
  induction losers with
  | nil =>
    intro t run i run2 h
    cases h
  | cons l ls ih =>
    intro t run i run2 h
    simp only [mergeLosersTx] at h
    split at h
    · rename_i e heq
      cases h
      exact (txOp_error heq).1
    · split at h
      · rename_i e heq
        cases h
        exact (txOp_error heq).1
      · exact ih _ _ _ _ h

/-- Everything the claim needs of the COMMIT/projection tail. -/
theorem commitTail_spec (oracle : Nat → Bool) (s : ServiceState)
    (cluster3 : List Contact) (tpId : Nat) (committed : ServiceState)
    (run : TxRun) :
    ((commitTail oracle s cluster3 tpId committed run).trace.getLast? =
      some "release") ∧
    (∀ i, (commitTail oracle s cluster3 tpId committed run).result =
        Except.error (TxError.storage i) →
      (commitTail oracle s cluster3 tpId committed run).durable = s ∧
      "ROLLBACK" ∈ (commitTail oracle s cluster3 tpId committed run).trace ∧
      oracle i = true) ∧
    (∀ r, (commitTail oracle s cluster3 tpId committed run).result =
        Except.ok r →
      "COMMIT" ∈ (commitTail oracle s cluster3 tpId committed run).trace) := by
  unfold commitTail
  split
  · rename_i i0 run2 heq
    have ha := abortTx_spec s i0 run2
    refine ⟨ha.1, ?_, ?_⟩
    · intro i h
      have := ha.2.2.2.1 i h
      subst this
      exact ⟨ha.2.1, ha.2.2.1, (txOp_error heq).1⟩
    · intro r h
      exact absurd h (ha.2.2.2.2 r)
  · rename_i run2 heq
    split
    · refine ⟨getLast?_append_pair _ _ _, ?_, ?_⟩
      · intro i h
        cases h
      · intro r h
        cases h
    · refine ⟨List.getLast?_concat _, ?_, ?_⟩
      · intro i h
        cases h
      · intro r _
        apply List.mem_append_left
        rw [txOp_ok heq]
        exact List.mem_append_right _ (List.mem_cons_self _ _)

/-- Everything the claim needs of the novelty/commit/projection tail. -/
theorem finishTx_spec (oracle : Nat → Bool) (email phoneNumber : Option String)
    (now : Nat) (s : ServiceState) (tp : Contact)
    (cluster2 table2 : List Contact) (run : TxRun) :
    ((finishTx oracle email phoneNumber now s tp cluster2 table2
        run).trace.getLast? = some "release") ∧
    (∀ i, (finishTx oracle email phoneNumber now s tp cluster2 table2
        run).result = Except.error (TxError.storage i) →
      (finishTx oracle email phoneNumber now s tp cluster2 table2
        run).durable = s ∧
      "ROLLBACK" ∈ (finishTx oracle email phoneNumber now s tp cluster2
        table2 run).trace ∧
      oracle i = true) ∧
    (∀ r, (finishTx oracle email phoneNumber now s tp cluster2 table2
        run).result = Except.ok r →
      "COMMIT" ∈ (finishTx oracle email phoneNumber now s tp cluster2
        table2 run).trace) := by
  simp only [finishTx]
  split
  · split
    · rename_i i0 run2 heq
      have ha := abortTx_spec s i0 run2
      refine ⟨ha.1, ?_, ?_⟩
      · intro i h
        have := ha.2.2.2.1 i h
        subst this
        exact ⟨ha.2.1, ha.2.2.1, (txOp_error heq).1⟩
      · intro r h
        exact absurd h (ha.2.2.2.2 r)
    · exact commitTail_spec ..
  · exact commitTail_spec ..

theorem abortTx_claim (s : ServiceState) (i0 : Nat) (run : TxRun)
    (oracle : Nat → Bool) (hor : oracle i0 = true) :
    ((abortTx s i0 run).trace.getLast? = some "release") ∧
    (∀ i, (abortTx s i0 run).result = Except.error (TxError.storage i) →
      (abortTx s i0 run).durable = s ∧
      "ROLLBACK" ∈ (abortTx s i0 run).trace ∧ oracle i = true) ∧
    (∀ r, (abortTx s i0 run).result = Except.ok r →
      "COMMIT" ∈ (abortTx s i0 run).trace) := by
  have ha := abortTx_spec s i0 run
  refine ⟨ha.1, ?_, ?_⟩
  · intro i h
    have := ha.2.2.2.1 i h
    subst this
    exact ⟨ha.2.1, ha.2.2.1, hor⟩
  · intro r h
    exact absurd h (ha.2.2.2.2 r)

/-- C8: for every failure pattern of the storage operations, a valid
identify call releases the connection on every exit path (the trace ends
with `release`); when the result is a storage error the durable state is
unchanged — no partial merges or creations persist — a ROLLBACK was issued,
and the error surfaced is exactly the failing operation's own error; a
successful result implies a COMMIT was issued. -/
theorem claim_C8_rollback_and_release (oracle : Nat → Bool)
    (be bp : Option String) (now : Nat) (s : ServiceState)
    (hv : ¬(trimOrNull be = none ∧ trimOrNull bp = none)) :
    ((identifyTx oracle be bp now s).trace.getLast? = some "release") ∧
    (∀ i, (identifyTx oracle be bp now s).result =
        Except.error (TxError.storage i) →
      (identifyTx oracle be bp now s).durable = s ∧
      "ROLLBACK" ∈ (identifyTx oracle be bp now s).trace ∧
      oracle i = true) ∧
    (∀ r, (identifyTx oracle be bp now s).result = Except.ok r →
      "COMMIT" ∈ (identifyTx oracle be bp now s).trace) := by
  simp only [identifyTx]
  rw [if_neg hv]
  split
  · rename_i i0 run heq
    exact abortTx_claim s i0 run oracle (txOp_error heq).1
  · rename_i run1 heq1
    split
    · rename_i i0 run heq
      exact abortTx_claim s i0 run oracle (txOp_error heq).1
    · rename_i run2 heq2
      split
      · split
        · rename_i i0 run heq
          exact abortTx_claim s i0 run oracle (txOp_error heq).1
        · exact commitTail_spec ..
      · split
        · rename_i i0 run heq
          exact abortTx_claim s i0 run oracle (txOp_error heq).1
        · rename_i run3 heq3
          split
          · split
            · refine ⟨getLast?_append_pair _ _ _, ?_, ?_⟩
              · intro i h
                cases h
              · intro r h
                cases h
            · rename_i tpS losers heqsort
              split
              · rename_i i0 run heqm
                exact abortTx_claim s i0 run oracle
                  (mergeLosersTx_error _ _ _ _ _ heqm)
              · rename_i t2 run4 heqm
                split
                · rename_i i0 run heq
                  exact abortTx_claim s i0 run oracle (txOp_error heq).1
                · exact finishTx_spec ..
          · split
            · refine ⟨getLast?_append_pair _ _ _, ?_, ?_⟩
              · intro i h
                cases h
              · intro r h
                cases h
            · exact finishTx_spec ..

theorem claim_C8_witness :
    ((identifyTx (fun i => i == 2) (some "a@b") none 3
        ⟨[], 1⟩).trace.getLast? = some "release") ∧
    (∀ i, (identifyTx (fun i => i == 2) (some "a@b") none 3
        ⟨[], 1⟩).result = Except.error (TxError.storage i) →
      (identifyTx (fun i => i == 2) (some "a@b") none 3
        ⟨[], 1⟩).durable = ⟨[], 1⟩ ∧
      "ROLLBACK" ∈ (identifyTx (fun i => i == 2) (some "a@b") none 3
        ⟨[], 1⟩).trace ∧
      (i == 2) = true) ∧
    (∀ r, (identifyTx (fun i => i == 2) (some "a@b") none 3
        ⟨[], 1⟩).result = Except.ok r →
      "COMMIT" ∈ (identifyTx (fun i => i == 2) (some "a@b") none 3
        ⟨[], 1⟩).trace) :=
  claim_C8_rollback_and_release (fun i => i == 2) (some "a@b") none 3 ⟨[], 1⟩
    (by decide)

end Bitespeed
